import Mathlib

set_option maxRecDepth 4000

/-!
Shallow embedding of the Sandbox Lifecycle & Log-Streaming Engine
(`server.js`, Node.js 20 + Express + dockerode) for verification of the
frozen claims about its specification.

The embedding mirrors the source:
* the path boundary check of `GET/PUT /api/bots/:id/file` (lines 102-121),
* the per-instance log buffer and fanout of `logStream.on('data')`
  (lines 233-240) and `container.wait()` (lines 243-248),
* the lifecycle operations `startBot` (183-251) and `stopBot` (253-260),
* the WebSocket log subscription (`wss.on('connection')`, 163-181).

JavaScript `Map`s are modelled as association lists; the fact that the
`bots` map stores mutable `entry` objects that closures keep aliases to
(the data handler and the wait handler capture `entry` even after
`bots.delete(id)`) is modelled with an explicit heap `entries` keyed by an
entry reference, while `bots` maps a bot id to such a reference.  The
external Docker daemon is modelled as an oracle (`Env` success flags for
`createContainer` / `start` / `stop`) plus a record in the state of which
containers have been created; the source never removes a container
(`AutoRemove: false` and no `remove` call), so the created list only grows.
-/

namespace Host

/-- Association-list lookup, first binding wins (models `Map.prototype.get`). -/
def alookup {α β : Type} [DecidableEq α] : List (α × β) → α → Option β
  | [], _ => none
  | (k, v) :: rest, k' => if k' = k then some v else alookup rest k'

/-- Remove every binding of a key (models `Map.prototype.delete`). -/
def aerase {α β : Type} [DecidableEq α] : List (α × β) → α → List (α × β)
  | [], _ => []
  | (k, v) :: rest, k' => if k = k' then aerase rest k' else (k, v) :: aerase rest k'

/-- Set a key to a value (models `Map.prototype.set`). -/
def aset {α β : Type} [DecidableEq α] (l : List (α × β)) (k : α) (v : β) : List (α × β) :=
  (k, v) :: aerase l k

theorem alookup_aerase_ne {α β : Type} [DecidableEq α] (l : List (α × β)) (k k' : α)
    (h : k' ≠ k) : alookup (aerase l k) k' = alookup l k' := by
  induction l with
  | nil => rfl
  | cons p rest ih =>
    obtain ⟨pk, pv⟩ := p
    by_cases hk : pk = k
    · rw [aerase, if_pos hk, ih, alookup]
      have hne : ¬ k' = pk := by rw [hk]; exact h
      rw [if_neg hne]
    · rw [aerase, if_neg hk]
      by_cases hk' : k' = pk
      · rw [alookup, if_pos hk', alookup, if_pos hk']
      · rw [alookup, if_neg hk', alookup, if_neg hk', ih]

theorem alookup_aerase_self {α β : Type} [DecidableEq α] (l : List (α × β)) (k : α) :
    alookup (aerase l k) k = none := by
  induction l with
  | nil => rfl
  | cons p rest ih =>
    obtain ⟨pk, pv⟩ := p
    by_cases hk : pk = k
    · rw [aerase, if_pos hk]; exact ih
    · have hne : ¬ k = pk := fun hkk => hk hkk.symm
      rw [aerase, if_neg hk, alookup, if_neg hne]; exact ih

theorem alookup_aset_self {α β : Type} [DecidableEq α] (l : List (α × β)) (k : α) (v : β) :
    alookup (aset l k v) k = some v := by
  simp [aset, alookup]

theorem alookup_aset_ne {α β : Type} [DecidableEq α] (l : List (α × β)) (k k' : α) (v : β)
    (h : k' ≠ k) : alookup (aset l k v) k' = alookup l k' := by
  simp only [aset, alookup, if_neg h]
  exact alookup_aerase_ne l k k' h

theorem aerase_of_alookup_none {α β : Type} [DecidableEq α] (l : List (α × β)) (k : α)
    (h : alookup l k = none) : aerase l k = l := by
  induction l with
  | nil => rfl
  | cons p rest ih =>
    obtain ⟨pk, pv⟩ := p
    by_cases hk : k = pk
    · rw [alookup, if_pos hk] at h
      exact absurd h (by simp)
    · rw [alookup, if_neg hk] at h
      have hne : ¬ pk = k := fun hkk => hk hkk.symm
      rw [aerase, if_neg hne, ih h]

/-! ## Path Boundary Guard (`GET/PUT /api/bots/:id/file`, lines 102-121)

The source computes `filePath = path.join(DATA_DIR, id, rel)` and rejects
with `'Invalid path'` unless `filePath.startsWith(path.join(DATA_DIR, id))`.
We embed Node's `path.join` for an absolute first argument: concatenate the
parts with `/`, split on `/`, then normalise (drop empty and `.` segments,
let `..` pop the previous segment, or vanish at the root), and re-join with
a leading `/`.  Trailing-slash preservation and the all-empty edge case of
Node's `join` are irrelevant to the inputs considered here.  JavaScript's
`String.prototype.startsWith` is embedded over the character lists. -/

/-- Split a string at every `/` (segment list of a path). -/
def splitSegsAux : List Char → List Char → List String
  | [], acc => [String.mk acc.reverse]
  | c :: cs, acc =>
    if c = '/' then String.mk acc.reverse :: splitSegsAux cs []
    else splitSegsAux cs (c :: acc)

def splitSegs (s : String) : List String := splitSegsAux s.data []

/-- Join segments with `/` between them. -/
def joinSegs : List String → String
  | [] => ""
  | [s] => s
  | s :: rest => s ++ "/" ++ joinSegs rest

/-- Normalise the segments of an absolute path the way Node's
`path.normalize` does: `""` and `"."` vanish, `".."` pops the previous
segment and vanishes at the root. -/
def normSegs (segs : List String) : List String :=
  segs.foldl
    (fun acc seg =>
      if seg = "" ∨ seg = "." then acc
      else if seg = ".." then acc.dropLast
      else acc ++ [seg])
    []

/-- Node's `path.join` for a list of parts whose first part is absolute. -/
def jsPathJoin (parts : List String) : String :=
  "/" ++ joinSegs (normSegs (splitSegs (joinSegs parts)))

/-- JavaScript `String.prototype.startsWith` (code-point wise). -/
def strStartsWith (s pre : String) : Bool :=
  pre.data.isPrefixOf s.data

/-- `DATA_DIR = path.resolve('./data/bots')` — an absolute directory;
its concrete text is irrelevant to the guard. -/
def DATA_DIR : String := "/data/bots"

/-- `path.join(DATA_DIR, id, rel)` — the path the endpoints read or write
(line 106 and line 117). -/
def filePathOf (id rel : String) : String := jsPathJoin [DATA_DIR, id, rel]

/-- The guard of lines 107 and 118:
`filePath.startsWith(path.join(DATA_DIR, id))`.  `true` means the request
is accepted (the filesystem is then touched), `false` means the endpoint
answers `400 'Invalid path'`. -/
def fileCheck (id rel : String) : Bool :=
  strStartsWith (filePathOf id rel) (jsPathJoin [DATA_DIR, id])

/-- Modelled from the spec's words (§4.2): the resolution of the requested
path stays equal to or nested under the bundle root iff the root's
normalised segments are a prefix of the resolved path's normalised
segments.  Used only to compare the claim's acceptance condition with the
code's `fileCheck`. -/
def withinRoot (id rel : String) : Bool :=
  (normSegs (splitSegs (joinSegs [DATA_DIR, id]))).isPrefixOf
    (normSegs (splitSegs (joinSegs [DATA_DIR, id, rel])))

/-! ## Log buffer (`logStream.on('data')`, lines 233-240)

`entry.logs.push(msg); if (entry.logs.length > 2000) entry.logs.shift();` -/

/-- One stream-data append to a log buffer: push at the back, and if the
length then exceeds 2000, shift one line off the front. -/
def appendLog (logs : List String) (msg : String) : List String :=
  let l := logs ++ [msg]
  if l.length > 2000 then l.drop 1 else l

/-- `[iso-timestamp] chunk` — the server-stamped line of line 234. -/
def stamp (t chunk : String) : String := "[" ++ t ++ "] " ++ chunk

theorem foldl_appendLog_general (msgs init : List String) (h : init.length ≤ 2000) :
    List.foldl appendLog init msgs
      = (init ++ msgs).drop ((init ++ msgs).length - 2000) := by
  induction msgs generalizing init with
  | nil =>
    simp only [List.foldl_nil, List.append_nil]
    have : init.length - 2000 = 0 := by omega
    simp [this]
  | cons m t ih =>
    simp only [List.foldl_cons]
    have hlen : (appendLog init m).length ≤ 2000 := by
      simp only [appendLog]
      split
      · simp only [List.length_drop, List.length_append, List.length_singleton]
        omega
      · next hc =>
        simp only [List.length_append, List.length_singleton] at hc ⊢
        omega
    rw [ih (appendLog init m) hlen]
    by_cases hc : init.length < 2000
    · have hc2 : ¬ (init ++ [m]).length > 2000 := by
        simp only [List.length_append, List.length_singleton]; omega
      simp only [appendLog, if_neg hc2]
      simp [List.append_assoc]
    · have h2000 : init.length = 2000 := by omega
      have hc2 : (init ++ [m]).length > 2000 := by
        simp only [List.length_append, List.length_singleton]; omega
      simp only [appendLog, if_pos hc2]
      have h1 : 1 ≤ (init ++ [m]).length := by
        simp only [List.length_append, List.length_singleton]; omega
      have hdrop : (init ++ [m]).drop 1 ++ t = ((init ++ [m]) ++ t).drop 1 :=
        (List.drop_append_of_le_length h1).symm
      rw [hdrop, List.drop_drop]
      have e1 : (init ++ [m]) ++ t = init ++ m :: t := by simp
      rw [e1]
      have e3 : 1 + (((init ++ m :: t).drop 1).length - 2000)
          = (init ++ m :: t).length - 2000 := by
        simp only [List.length_drop, List.length_append, List.length_cons]
        omega
      rw [e3]

/-! ## Data model

`bots` is the process-wide `Map: botId -> { container, logs, listeners }`
(line 34).  Because the stream-data handler and the wait handler capture
the `entry` object itself and keep mutating it even after `bots.delete(id)`
removed it from the map, the entry objects live in an explicit heap
`entries` keyed by a reference number; `bots` maps a bot id to such a
reference.  `containers` records the ids of every Docker container created
so far — the source sets `AutoRemove: false` and never calls `remove`, so
this list only grows.  `received` records, per WebSocket subscriber id,
every log line sent to it (`ws.send`, with the batched history counted line
by line).  `stopCalls` records each `container.stop({t:5})` request
together with the success its promise resolved with. -/

/-- `{ container, logs, listeners }` — the registry entry of line 228.
`container` is always an object in the source (hence truthy); we keep its
Docker id. -/
structure Entry where
  container : Nat
  logs : List String
  listeners : List Nat
deriving Repr, DecidableEq

structure Sys where
  bots : List (String × Nat)
  entries : List (Nat × Entry)
  nextRef : Nat
  containers : List Nat
  nextCid : Nat
  received : List (Nat × List String)
  stopCalls : List (Nat × Bool)
deriving Repr, DecidableEq

/-- The state of a freshly started process: every map empty (line 34). -/
def sys0 : Sys := ⟨[], [], 0, [], 0, [], []⟩

/-- Oracle for the filesystem and the external Docker daemon, fixed for the
duration of one operation: whether the bundle directory exists, the file
names present at the bundle root, the parsed truthy `main` field of a
`package.json` at the root (if that file parses), and whether the daemon
accepts `createContainer`, `container.start`, `container.stop`. -/
structure Env where
  dirExists : Bool
  files : List String
  pkgMain : Option String
  createOk : Bool
  startOk : Bool
  stopOk : Bool
deriving Repr, DecidableEq

/-- The failures `startBot` can throw (lines 185, 202, 211, 226); the
route handler surfaces each as a 500 with the message. -/
inductive Err where
  | notFound
  | noEntry
  | createFail
  | startFail
deriving Repr, DecidableEq

/-- The value `startBot` resolves with: `{ containerId }` on a fresh start
(line 250), `{ message: 'already running', containerId }` on the
idempotent path (line 186). -/
structure StartResult where
  message : Option String
  containerId : Nat
deriving Repr, DecidableEq

/-- Entry-point discovery of lines 188-202: try `index.js`, `app.js`,
`server.js` at the bundle root in that order, first hit wins; otherwise,
if a `package.json` with a truthy `main` exists, use it.  (A present but
unparseable `package.json` would throw a different error; that path is
outside every claim considered here.) -/
def resolveEntry (files : List String) (pkgMain : Option String) : Option String :=
  match ["index.js", "app.js", "server.js"].find? (fun c => files.contains c) with
  | some c => some ("/bot/" ++ c)
  | none =>
    if files.contains "package.json" then
      match pkgMain with
      | some m => some ("/bot/" ++ m)
      | none => none
    else none

/-- `bots.has(id) && bots.get(id).container` (line 186) — since every
stored entry carries a container object, this is exactly a successful
lookup through the map and the heap. -/
def runningEntry (s : Sys) (id : String) : Option Entry :=
  match alookup s.bots id with
  | none => none
  | some ref => alookup s.entries ref

/-- `startBot(id)`, lines 183-251.  The await points (`fs.pathExists`,
`docker.createContainer`, `container.start`) are resolved by the `Env`
oracle; a created container is recorded before `start` is attempted, and —
exactly as in the source, which has no try/catch here — a `start` failure
leaves that container in place.  On success the new entry is registered
(`bots.set(id, entry)`, line 229) and the container id returned. -/
def startBot (env : Env) (s : Sys) (id : String) : Except Err StartResult × Sys :=
  if env.dirExists = false then (.error .notFound, s)
  else
    match runningEntry s id with
    | some e => (.ok ⟨some "already running", e.container⟩, s)
    | none =>
      match resolveEntry env.files env.pkgMain with
      | none => (.error .noEntry, s)
      | some _ep =>
        if env.createOk = false then (.error .createFail, s)
        else
          let cid := s.nextCid
          let s1 : Sys :=
            { s with containers := s.containers ++ [cid], nextCid := cid + 1 }
          if env.startOk = false then (.error .startFail, s1)
          else
            let ref := s1.nextRef
            let s2 : Sys :=
              { s1 with
                bots := aset s1.bots id ref
                entries := aset s1.entries ref ⟨cid, [], []⟩
                nextRef := ref + 1 }
            (.ok ⟨none, cid⟩, s2)

/-- `stopBot(id)`, lines 253-260: no entry (or falsy container) means
return at once; otherwise `container.stop({t:5})` is requested — its
failure is caught, logged and swallowed, so the registered outcome
`env.stopOk` cannot influence anything else — and then `bots.delete(id)`
runs unconditionally.  The heap keeps the detached entry object, exactly
as the closures of lines 233-248 do. -/
def stopBot (env : Env) (s : Sys) (id : String) : Sys :=
  match alookup s.bots id with
  | none => s
  | some ref =>
    let s1 : Sys := { s with stopCalls := s.stopCalls ++ [(ref, env.stopOk)] }
    { s1 with bots := aerase s1.bots id }

/-- `Set.prototype.add` for the listener set. -/
def addListener (ls : List Nat) (sid : Nat) : List Nat :=
  if ls.contains sid then ls else ls ++ [sid]

/-- Messages sent so far to subscriber `sid` (empty when never sent to). -/
def getRcv (r : List (Nat × List String)) (sid : Nat) : List String :=
  (alookup r sid).getD []

/-- Fan one line out to every listener, in registration order
(lines 237-239 and 246; a throwing listener is swallowed, so delivery is
recorded unconditionally). -/
def deliver (r : List (Nat × List String)) (ls : List Nat) (msg : String) :
    List (Nat × List String) :=
  ls.foldl (fun acc sid => aset acc sid (getRcv acc sid ++ [msg])) r

/-- The stream-data handler of lines 233-240, firing for the entry object
it captured: stamp the chunk, append with the 2000 cap, then deliver to
every current listener. -/
def onData (s : Sys) (ref : Nat) (t chunk : String) : Sys :=
  match alookup s.entries ref with
  | none => s
  | some e =>
    let msg := stamp t chunk
    let s1 : Sys := { s with entries := aset s.entries ref { e with logs := appendLog e.logs msg } }
    { s1 with received := deliver s1.received e.listeners msg }

/-- The stamped `container exited …` line of line 244, carrying the
serialised wait result. -/
def exitMsg (t res : String) : String := "[" ++ t ++ "] container exited " ++ res

/-- The `container.wait()` continuation of lines 243-248, firing for the
entry object and bot id it captured: push the exited line (note: a plain
`push`, with no capacity check), deliver it to every current listener,
then `bots.delete(id)`. -/
def onWait (s : Sys) (id : String) (ref : Nat) (t res : String) : Sys :=
  match alookup s.entries ref with
  | none => s
  | some e =>
    let msg := exitMsg t res
    let s1 : Sys := { s with entries := aset s.entries ref { e with logs := e.logs ++ [msg] } }
    let s2 : Sys := { s1 with received := deliver s1.received e.listeners msg }
    { s2 with bots := aerase s2.bots id }

/-- The WebSocket connection handler of lines 163-181 for a present
`botId`: when the registry has a live entry, send it the last 200 buffered
lines (`entry.logs.slice(-200)`, line 173) and add its callback to the
listener set; when it has none, neither happens and the socket is left
registered nowhere. -/
def connectWS (s : Sys) (sid : Nat) (botId : String) : Sys :=
  match alookup s.bots botId with
  | none => s
  | some ref =>
    match alookup s.entries ref with
    | none => s
    | some e =>
      let hist := e.logs.drop (e.logs.length - 200)
      let s1 : Sys := { s with received := aset s.received sid (getRcv s.received sid ++ hist) }
      { s1 with entries := aset s1.entries ref { e with listeners := addListener e.listeners sid } }

/-- Fold the stream-data handler over a list of timestamped chunks. -/
def runData (ref : Nat) (s : Sys) (chunks : List (String × String)) : Sys :=
  chunks.foldl (fun st p => onData st ref p.1 p.2) s

theorem getRcv_aset_self (r : List (Nat × List String)) (sid : Nat) (v : List String) :
    getRcv (aset r sid v) sid = v := by
  simp [getRcv, alookup_aset_self]

theorem getRcv_aset_ne (r : List (Nat × List String)) (sid sid' : Nat) (v : List String)
    (h : sid' ≠ sid) : getRcv (aset r sid v) sid' = getRcv r sid' := by
  simp [getRcv, alookup_aset_ne r sid sid' v h]

theorem getRcv_deliver (ls : List Nat) (r : List (Nat × List String)) (m : String)
    (sid : Nat) :
    getRcv (deliver r ls m) sid = getRcv r sid ++ List.replicate (ls.count sid) m := by
  induction ls generalizing r with
  | nil => simp [deliver]
  | cons x t ih =>
    simp only [deliver, List.foldl_cons] at *
    rw [ih]
    by_cases hx : sid = x
    · subst hx
      rw [getRcv_aset_self]
      have hc : (sid :: t).count sid = t.count sid + 1 := by
        simp [List.count_cons]
      rw [hc, List.append_assoc]
      simp [List.replicate_succ]
    · rw [getRcv_aset_ne r x sid _ hx]
      have hxs : ¬ x = sid := fun h => hx h.symm
      have hc : (x :: t).count sid = t.count sid := by
        simp [List.count_cons, hxs]
      rw [hc]

theorem runData_received (chunks : List (String × String)) (ref sid n : Nat) :
    ∀ (s : Sys) (e : Entry), alookup s.entries ref = some e →
      e.listeners.count sid = n →
      getRcv (runData ref s chunks).received sid
          = getRcv s.received sid
            ++ chunks.flatMap (fun p => List.replicate n (stamp p.1 p.2))
        ∧ ∃ e', alookup (runData ref s chunks).entries ref = some e'
            ∧ e'.listeners = e.listeners := by
  induction chunks with
  | nil =>
    intro s e he hn
    exact ⟨by simp [runData], e, by simpa [runData] using he, rfl⟩
  | cons p t ih =>
    intro s e he hn
    have hstep : runData ref s (p :: t) = runData ref (onData s ref p.1 p.2) t := by
      simp [runData]
    have he1 : alookup (onData s ref p.1 p.2).entries ref
        = some { e with logs := appendLog e.logs (stamp p.1 p.2) } := by
      simp only [onData, he]
      exact alookup_aset_self ..
    have hn1 : ({ e with logs := appendLog e.logs (stamp p.1 p.2) } : Entry).listeners.count sid = n := hn
    obtain ⟨hr, e', he', hl⟩ := ih (onData s ref p.1 p.2) _ he1 hn1
    rw [hstep]
    refine ⟨?_, e', he', hl⟩
    rw [hr]
    have hrecv : getRcv (onData s ref p.1 p.2).received sid
        = getRcv s.received sid ++ List.replicate n (stamp p.1 p.2) := by
      simp only [onData, he]
      rw [getRcv_deliver, hn]
    rw [hrecv, List.append_assoc]
    simp

/-! ## Interleaved Start calls (§5 of the spec)

`startBot` is an `async` function: its body suspends at every `await`
(`fs.pathExists`, the entry-point probes, `docker.createContainer`,
`container.start`), and the source takes no lock of any kind, so two
concurrent `POST /api/bots/:id/start` handlers interleave at those points.
`TPhase` cuts `startBot` at its awaits:

* `init`:    resumes after `fs.pathExists`; runs the already-running check
             (line 186) and entry-point resolution, then suspends awaiting
             `docker.createContainer` (line 211);
* `checked`: `createContainer` resolves — the container now exists
             externally — then suspends awaiting `container.start`;
* `created`: `start` resolves; `bots.set(id, entry)` runs (line 229) and
             the call returns.

`runTwo` executes two such calls for the same id under an explicit
schedule (`false` steps the first call, `true` the second). -/

instance : DecidableEq (Except Err StartResult) := fun a b =>
  match a, b with
  | .error x, .error y =>
    if h : x = y then .isTrue (by rw [h])
    else .isFalse (fun hc => h (by cases hc; rfl))
  | .error _, .ok _ => .isFalse (fun hc => Except.noConfusion hc)
  | .ok _, .error _ => .isFalse (fun hc => Except.noConfusion hc)
  | .ok x, .ok y =>
    if h : x = y then .isTrue (by rw [h])
    else .isFalse (fun hc => h (by cases hc; rfl))

inductive TPhase where
  | init
  | checked
  | created (cid : Nat)
  | finished (r : Except Err StartResult)
deriving Repr, DecidableEq

/-- One resume-to-next-await step of an in-flight `startBot id`. -/
def stepStart (env : Env) (id : String) (g : Sys) : TPhase → Sys × TPhase
  | .init =>
    if env.dirExists = false then (g, .finished (.error .notFound))
    else
      match runningEntry g id with
      | some e => (g, .finished (.ok ⟨some "already running", e.container⟩))
      | none =>
        match resolveEntry env.files env.pkgMain with
        | none => (g, .finished (.error .noEntry))
        | some _ => (g, .checked)
  | .checked =>
    if env.createOk = false then (g, .finished (.error .createFail))
    else
      ({ g with containers := g.containers ++ [g.nextCid], nextCid := g.nextCid + 1 },
        .created g.nextCid)
  | .created cid =>
    if env.startOk = false then (g, .finished (.error .startFail))
    else
      ({ g with
          bots := aset g.bots id g.nextRef
          entries := aset g.entries g.nextRef ⟨cid, [], []⟩
          nextRef := g.nextRef + 1 },
        .finished (.ok ⟨none, cid⟩))
  | .finished r => (g, .finished r)

/-- Run two concurrent `startBot id` calls under a schedule. -/
def runTwo (env : Env) (id : String) :
    Sys → TPhase → TPhase → List Bool → Sys × TPhase × TPhase
  | g, t0, t1, [] => (g, t0, t1)
  | g, t0, t1, b :: rest =>
    if b then
      let gt := stepStart env id g t1
      runTwo env id gt.1 t0 gt.2 rest
    else
      let gt := stepStart env id g t0
      runTwo env id gt.1 gt.2 t1 rest

theorem flatMap_replicate_one {α β : Type} (l : List α) (f : α → β) :
    l.flatMap (fun a => List.replicate 1 (f a)) = l.map f := by
  induction l with
  | nil => rfl
  | cons a t ih =>
    rw [List.flatMap_cons, ih]
    simp [List.replicate_succ]

theorem flatMap_replicate_zero {α β : Type} (l : List α) (f : α → β) :
    l.flatMap (fun a => List.replicate 0 (f a)) = ([] : List β) := by
  induction l with
  | nil => rfl
  | cons a t ih => simp [List.flatMap_cons, ih]

/-- Taking the last `b` elements of the last `a` elements of a list takes
its last `b` elements, when `b ≤ a` (composition of two `slice(-n)`s). -/
theorem drop_last_drop_last {α : Type} (l : List α) (a b : Nat) (hba : b ≤ a) :
    (l.drop (l.length - a)).drop ((l.drop (l.length - a)).length - b)
      = l.drop (l.length - b) := by
  rw [List.drop_drop]
  have e : l.length - a + ((l.drop (l.length - a)).length - b) = l.length - b := by
    rw [List.length_drop]
    omega
  rw [e]

theorem length_drop_last {α : Type} (l : List α) (b : Nat) :
    (l.drop (l.length - b)).length = min l.length b := by
  rw [List.length_drop]
  omega

/-! ## Concrete fixtures -/

/-- A bundle whose root holds `index.js`, with a compliant daemon. -/
def envGood : Env := ⟨true, ["index.js"], none, true, true, true⟩

/-- Same bundle, but `container.start` is rejected by the daemon. -/
def envStartFail : Env := ⟨true, ["index.js"], none, true, false, true⟩

/-- A bundle with no conventional entry file and no manifest `main`. -/
def envNoEntry : Env := ⟨true, ["notes.txt"], none, true, true, true⟩

/-- A healthy bundle whose daemon rejects `container.stop`. -/
def envStopFail : Env := ⟨true, ["index.js"], none, true, true, false⟩

/-- A registry with bot `"b"` running and its log buffer at the 2000-line
capacity. -/
def sysFull : Sys :=
  ⟨[("b", 0)], [(0, ⟨0, List.replicate 2000 "x", []⟩)], 1, [0], 1, [], []⟩

/-- The state after starting bot `"b1"` from a fresh process. -/
def sStarted : Sys := (startBot envGood sys0 "b1").2

/-- `sStarted` with WebSocket subscriber 5 attached to `"b1"`. -/
def sSub : Sys := connectWS sStarted 5 "b1"

/-! ## Claims -/

/-- Claim C1. The claim says the file read/write endpoints reject every
requested path whose resolution escapes the bundle root.  The code's guard
(lines 107 and 118) is `path.join(DATA_DIR, id, rel).startsWith(path.join(DATA_DIR, id))`
— a textual prefix test with no trailing separator.  For bundle `abc` and
requested path `../abcd/secret`, the joined path resolves to
`/data/bots/abcd/secret`, which lies outside bundle `abc`'s root (inside
sibling bundle `abcd`), yet begins with the characters `/data/bots/abc`,
so the guard accepts it and the endpoint reads or writes the foreign file.
This theorem evaluates the embedded guard at that failing input: the check
accepts, although the resolved path is not within the root. -/
theorem C1_guard_accepts_escaping_path :
    fileCheck "abc" "../abcd/secret" = true
    ∧ withinRoot "abc" "../abcd/secret" = false
    ∧ filePathOf "abc" "../abcd/secret" = "/data/bots/abcd/secret" := by
  decide

/-- Claim C2, counterexample.  The claim says that when `container.start`
fails, every partially-created external resource is released.  In the
source, `startBot` has no try/catch: when `docker.createContainer`
succeeds (the container now exists, with `AutoRemove: false`) and
`container.start` then rejects, the error propagates out with no cleanup
of any kind.  Concretely, from a fresh process: the call fails, yet the
created container (id 0) still exists afterwards — nothing was released
(release would leave `containers` at its initial `[]`). -/
theorem C2_start_failure_leaks_container :
    (startBot envStartFail sys0 "b1").1 = .error .startFail
    ∧ (startBot envStartFail sys0 "b1").2.containers = [0]
    ∧ sys0.containers = [] := by
  decide

/-- Claim C2, amended.  What does hold on the code: whenever `startBot`
fails (with any of its errors), the failure is surfaced to the caller, the
registry (`bots` and the entry heap) is exactly as before the call — in
particular there is no entry with a container handle for the bundle, which
is the `Stopped` state — and for a creation/start failure the bundle had
and has no running entry, so a retry will again reach the creation step.
(The partially-created container itself is **not** released; see the
counterexample.) -/
theorem C2_start_failure_reverts_registry (env : Env) (s : Sys) (id : String)
    (e : Err) (s2 : Sys) (h : startBot env s id = (.error e, s2)) :
    s2.bots = s.bots
    ∧ s2.entries = s.entries
    ∧ runningEntry s2 id = runningEntry s id
    ∧ ((e = Err.createFail ∨ e = Err.startFail) → runningEntry s2 id = none) := by
  have hbase : s2.bots = s.bots ∧ s2.entries = s.entries
      ∧ ((e = Err.createFail ∨ e = Err.startFail) → runningEntry s id = none) := by
    by_cases hde : env.dirExists = false
    · rw [startBot, if_pos hde] at h
      simp only [Prod.mk.injEq] at h
      obtain ⟨he, hs⟩ := h
      cases he
      exact ⟨by rw [← hs], by rw [← hs], by intro hc; rcases hc with hc | hc <;> cases hc⟩
    · rw [startBot, if_neg hde] at h
      cases hre : runningEntry s id with
      | some e0 =>
        rw [hre] at h
        simp at h
      | none =>
        rw [hre] at h
        cases hrs : resolveEntry env.files env.pkgMain with
        | none =>
          rw [hrs] at h
          simp only [Prod.mk.injEq] at h
          obtain ⟨he, hs⟩ := h
          exact ⟨by rw [← hs], by rw [← hs], fun _ => rfl⟩
        | some ep =>
          rw [hrs] at h
          by_cases hco : env.createOk = false
          · rw [if_pos hco] at h
            simp only [Prod.mk.injEq] at h
            obtain ⟨he, hs⟩ := h
            exact ⟨by rw [← hs], by rw [← hs], fun _ => rfl⟩
          · rw [if_neg hco] at h
            by_cases hso : env.startOk = false
            · rw [if_pos hso] at h
              simp only [Prod.mk.injEq] at h
              obtain ⟨he, hs⟩ := h
              exact ⟨by rw [← hs], by rw [← hs], fun _ => rfl⟩
            · rw [if_neg hso] at h
              simp at h
  obtain ⟨hb, he2, hrn⟩ := hbase
  have hre : runningEntry s2 id = runningEntry s id := by
    rw [runningEntry, runningEntry, hb, he2]
  exact ⟨hb, he2, hre, fun hc => hre.trans (hrn hc)⟩

/-- Claim C2, witness for the amended theorem, at the concrete failing
start. -/
theorem C2_start_failure_reverts_registry_witness :
    (startBot envStartFail sys0 "b1").2.bots = sys0.bots
    ∧ (startBot envStartFail sys0 "b1").2.entries = sys0.entries
    ∧ runningEntry (startBot envStartFail sys0 "b1").2 "b1" = runningEntry sys0 "b1"
    ∧ ((Err.startFail = Err.createFail ∨ Err.startFail = Err.startFail) →
        runningEntry (startBot envStartFail sys0 "b1").2 "b1" = none) := by
  have h : startBot envStartFail sys0 "b1"
      = (.error .startFail, (startBot envStartFail sys0 "b1").2) := by decide
  exact C2_start_failure_reverts_registry envStartFail sys0 "b1" .startFail _ h

/-- Claim C3.  Start is idempotent for a running bundle: if one `startBot`
call returned successfully (with container id `r.containerId`), a second
call without an intervening stop is a registry no-op — it hits the
`already running` path of line 186, returns the same container id, changes
no state, and in particular creates no second container.  When the first
call actually created the sandbox (`r.message = none`), the pair of calls
has created exactly one container. -/
theorem C3_start_twice_idempotent (env env2 : Env) (s : Sys) (id : String)
    (r : StartResult) (s2 : Sys)
    (h : startBot env s id = (.ok r, s2)) (hd : env2.dirExists = true) :
    startBot env2 s2 id = (.ok ⟨some "already running", r.containerId⟩, s2)
    ∧ (r.message = none → s2.containers.length = s.containers.length + 1) := by
  have hd2 : ¬ env2.dirExists = false := by rw [hd]; simp
  by_cases hde : env.dirExists = false
  · rw [startBot, if_pos hde] at h
    simp at h
  · rw [startBot, if_neg hde] at h
    cases hre : runningEntry s id with
    | some e0 =>
      rw [hre] at h
      simp only [Prod.mk.injEq, Except.ok.injEq] at h
      obtain ⟨hr, hs⟩ := h
      constructor
      · rw [startBot, if_neg hd2, ← hs, hre, ← hr]
      · intro hm
        rw [← hr] at hm
        simp at hm
    | none =>
      rw [hre] at h
      cases hrs : resolveEntry env.files env.pkgMain with
      | none => rw [hrs] at h; simp at h
      | some ep =>
        rw [hrs] at h
        by_cases hco : env.createOk = false
        · rw [if_pos hco] at h; simp at h
        · rw [if_neg hco] at h
          by_cases hso : env.startOk = false
          · rw [if_pos hso] at h; simp at h
          · rw [if_neg hso] at h
            simp only [Prod.mk.injEq, Except.ok.injEq] at h
            obtain ⟨hr, hs⟩ := h
            constructor
            · rw [startBot, if_neg hd2, ← hs]
              have hre2 : runningEntry
                  { s with
                    containers := s.containers ++ [s.nextCid], nextCid := s.nextCid + 1,
                    bots := aset s.bots id s.nextRef,
                    entries := aset s.entries s.nextRef ⟨s.nextCid, [], []⟩,
                    nextRef := s.nextRef + 1 } id = some ⟨s.nextCid, [], []⟩ := by
                rw [runningEntry]
                simp [alookup_aset_self]
              rw [hre2, ← hr]
            · intro _
              rw [← hs]
              simp

/-- Claim C3, witness: starting a fresh bundle twice from the initial state. -/
theorem C3_start_twice_idempotent_witness :
    startBot envGood (startBot envGood sys0 "b1").2 "b1"
      = (.ok ⟨some "already running", 0⟩, (startBot envGood sys0 "b1").2)
    ∧ (startBot envGood sys0 "b1").2.containers.length = sys0.containers.length + 1 := by
  have h : startBot envGood sys0 "b1"
      = (.ok ⟨none, 0⟩, (startBot envGood sys0 "b1").2) := by decide
  have hmain := C3_start_twice_idempotent envGood envGood sys0 "b1" ⟨none, 0⟩ _ h rfl
  exact ⟨hmain.1, hmain.2 rfl⟩

/-- Claim C4, counterexample.  The claim says the buffer holds at most 2000
lines after *every* append.  The stream-data appends (lines 233-240) do
keep the cap, but the `container.wait()` continuation (line 245) appends
its `container exited …` line with a bare `push` and no eviction: with the
buffer at its 2000-line capacity, the exit of the container leaves 2001
retained lines. -/
theorem C4_exit_append_exceeds_capacity :
    ((alookup sysFull.entries 0).map fun e => e.logs.length) = some 2000
    ∧ ((alookup (onWait sysFull "b" 0 "t" "0").entries 0).map fun e => e.logs.length)
        = some 2001 := by
  constructor
  · have h1 : alookup sysFull.entries 0
        = some ⟨0, List.replicate 2000 "x", []⟩ := rfl
    rw [h1]
    show some (List.replicate 2000 "x").length = some 2000
    rw [List.length_replicate]
  · have h2 : (onWait sysFull "b" 0 "t" "0").entries
        = aset sysFull.entries 0
            ⟨0, List.replicate 2000 "x" ++ ["[t] container exited 0"], []⟩ := rfl
    rw [h2, alookup_aset_self]
    show some (List.replicate 2000 "x" ++ ["[t] container exited 0"]).length = some 2001
    rw [List.length_append, List.length_replicate]
    rfl

/-- Claim C4, amended.  For the stream-data appends of lines 233-240 the
claim holds, and in the strongest form: starting from the empty buffer,
after any sequence of appends the buffer is exactly the suffix of the
appended lines consisting of the most recent (at most) 2000 of them — so
it never exceeds 2000 lines, the oldest line is the one evicted each time
the capacity is exceeded, and the retained lines keep their order.  (The
one append that escapes the cap is the `container exited` line of the wait
continuation; see the counterexample.) -/
theorem C4_stream_appends_bounded_fifo (msgs : List String) :
    List.foldl appendLog [] msgs = msgs.drop (msgs.length - 2000)
    ∧ (List.foldl appendLog [] msgs).length ≤ 2000 := by
  have h := foldl_appendLog_general msgs [] (by simp)
  simp only [List.nil_append] at h
  refine ⟨h, ?_⟩
  rw [h]
  simp only [List.length_drop]
  omega

/-- Claim C5.  Replay-then-live subscription: take any state whose registry
maps `id` to a live entry whose buffer holds the most recent (at most)
2000 of the `hist` lines appended so far (which is what the stream-data
handler maintains, see `C4_stream_appends_bounded_fifo`), and a fresh
subscriber `sid` (not yet a listener, nothing sent to it yet).  After the
WebSocket connection handler runs and then `post` further chunks arrive on
the stream, the subscriber has received exactly the most recent
`min(hist.length, 200)` of the previously appended lines (the
`slice(-200)` history of line 173), followed by exactly the stamped lines
appended after attachment — nothing missing, nothing duplicated at the
boundary. -/
theorem C5_subscribe_replay (s : Sys) (id : String) (ref : Nat) (e : Entry) (sid : Nat)
    (hist : List String) (post : List (String × String))
    (hb : alookup s.bots id = some ref)
    (he : alookup s.entries ref = some e)
    (hlogs : e.logs = hist.drop (hist.length - 2000))
    (hls : e.listeners.count sid = 0)
    (hrcv : getRcv s.received sid = []) :
    getRcv (runData ref (connectWS s sid id) post).received sid
      = hist.drop (hist.length - 200) ++ post.map (fun p => stamp p.1 p.2)
    ∧ (hist.drop (hist.length - 200)).length = min hist.length 200 := by
  have hmem : sid ∉ e.listeners := List.count_eq_zero.mp hls
  have hcont : e.listeners.contains sid = false := by simpa using hmem
  have hadd : addListener e.listeners sid = e.listeners ++ [sid] := by
    rw [addListener, hcont]
    simp
  have hcount1 : (addListener e.listeners sid).count sid = 1 := by
    rw [hadd, List.count_append, hls]
    simp
  have hreplay : e.logs.drop (e.logs.length - 200) = hist.drop (hist.length - 200) := by
    rw [hlogs]
    exact drop_last_drop_last hist 2000 200 (by omega)
  have hconn : connectWS s sid id
      = { s with
          received := aset s.received sid (getRcv s.received sid ++ e.logs.drop (e.logs.length - 200)),
          entries := aset s.entries ref { e with listeners := addListener e.listeners sid } } := by
    simp only [connectWS, hb, he]
  have heC : alookup (connectWS s sid id).entries ref
      = some { e with listeners := addListener e.listeners sid } := by
    rw [hconn]
    exact alookup_aset_self ..
  obtain ⟨hr, -⟩ := runData_received post ref sid 1 (connectWS s sid id)
    { e with listeners := addListener e.listeners sid } heC hcount1
  have hrC : getRcv (connectWS s sid id).received sid = hist.drop (hist.length - 200) := by
    rw [hconn]
    show getRcv (aset s.received sid (getRcv s.received sid ++ e.logs.drop (e.logs.length - 200))) sid
      = hist.drop (hist.length - 200)
    rw [getRcv_aset_self, hrcv, hreplay]
    simp
  constructor
  · rw [hr, hrC, flatMap_replicate_one]
  · exact length_drop_last hist 200

/-- Claim C5, witness: subscriber 7 attaches to `"b1"` after two lines were
appended, then one more chunk arrives. -/
theorem C5_subscribe_replay_witness :
    getRcv (runData 0 (connectWS (runData 0 sStarted [("t1", "a"), ("t2", "b")]) 7 "b1")
        [("t3", "c")]).received 7
      = [stamp "t1" "a", stamp "t2" "b"].drop ([stamp "t1" "a", stamp "t2" "b"].length - 200)
        ++ [("t3", "c")].map (fun p => stamp p.1 p.2)
    ∧ ([stamp "t1" "a", stamp "t2" "b"].drop ([stamp "t1" "a", stamp "t2" "b"].length - 200)).length
        = min [stamp "t1" "a", stamp "t2" "b"].length 200 := by
  exact C5_subscribe_replay (runData 0 sStarted [("t1", "a"), ("t2", "b")]) "b1" 0
    ⟨0, [stamp "t1" "a", stamp "t2" "b"], []⟩ 7
    [stamp "t1" "a", stamp "t2" "b"] [("t3", "c")]
    (by decide) (by decide) (by decide) (by decide) (by decide)

/-- Claim C6.  Stop always converges: for every oracle (in particular one
whose `container.stop` rejects — the source catches, logs and swallows
that rejection), `stopBot` leaves the `bots` map exactly with the `id`
binding erased, so afterwards the registry has no entry for `id` (the
`Stopped` state, in which a subsequent Start proceeds to creation); and
when there is no registry entry to begin with, `stopBot` is a complete
no-op. -/
theorem C6_stop_always_converges (env : Env) (s : Sys) (id : String) :
    (stopBot env s id).bots = aerase s.bots id
    ∧ alookup (stopBot env s id).bots id = none
    ∧ runningEntry (stopBot env s id) id = none
    ∧ (alookup s.bots id = none → stopBot env s id = s) := by
  cases hl : alookup s.bots id with
  | none =>
    have hst : stopBot env s id = s := by
      simp only [stopBot, hl]
    refine ⟨?_, ?_, ?_, fun _ => hst⟩
    · rw [hst, aerase_of_alookup_none s.bots id hl]
    · rw [hst]
      exact hl
    · rw [hst, runningEntry, hl]
  | some ref =>
    have hst : (stopBot env s id).bots = aerase s.bots id := by
      simp only [stopBot, hl]
    refine ⟨hst, ?_, ?_, fun hc => Option.noConfusion hc⟩
    · rw [hst]
      exact alookup_aerase_self ..
    · rw [runningEntry, hst, alookup_aerase_self]

/-- Claim C6, witness: stopping the running `"b1"` while the daemon rejects
the stop still clears the registry; stopping a never-started bot is a
no-op. -/
theorem C6_stop_always_converges_witness :
    (stopBot envStopFail sStarted "b1").bots = aerase sStarted.bots "b1"
    ∧ alookup (stopBot envStopFail sStarted "b1").bots "b1" = none
    ∧ runningEntry (stopBot envStopFail sStarted "b1") "b1" = none
    ∧ stopBot envStopFail sys0 "b2" = sys0 := by
  have h1 := C6_stop_always_converges envStopFail sStarted "b1"
  have h2 := C6_stop_always_converges envStopFail sys0 "b2"
  exact ⟨h1.1, h1.2.1, h1.2.2.1, h2.2.2.2 rfl⟩

/-- Claim C7.  The background wait observer: for any state whose registry
maps `id` to a live entry, when `container.wait()` resolves the
continuation (lines 243-248) appends the stamped `container exited` line
carrying the wait result to the captured entry's buffer, delivers it to
every currently registered live subscriber, and removes the registry entry
(the `Stopped` state).  The transition is idempotent with respect to an
operator Stop in both orders: after the observer ran, `stopBot` is a
complete no-op; and if `stopBot` ran first, the observer still appends and
delivers the exited line on the detached entry object and the registry
stays cleared (its own `bots.delete` finds nothing).  Afterwards a fresh
Start of the same id is accepted: it passes the already-running check and
succeeds whenever the daemon and resolver do. -/
theorem C7_exit_observer (env : Env) (s : Sys) (id : String) (ref : Nat) (e : Entry)
    (t res : String)
    (hb : alookup s.bots id = some ref)
    (he : alookup s.entries ref = some e) :
    alookup (onWait s id ref t res).entries ref
        = some { e with logs := e.logs ++ [exitMsg t res] }
    ∧ (∀ sid, e.listeners.count sid = 1 →
        getRcv (onWait s id ref t res).received sid
          = getRcv s.received sid ++ [exitMsg t res])
    ∧ alookup (onWait s id ref t res).bots id = none
    ∧ runningEntry (onWait s id ref t res) id = none
    ∧ stopBot env (onWait s id ref t res) id = onWait s id ref t res
    ∧ alookup (onWait (stopBot env s id) id ref t res).bots id = none
    ∧ alookup (onWait (stopBot env s id) id ref t res).entries ref
        = some { e with logs := e.logs ++ [exitMsg t res] }
    ∧ (∀ env2 ep, env2.dirExists = true →
        resolveEntry env2.files env2.pkgMain = some ep →
        env2.createOk = true → env2.startOk = true →
        (startBot env2 (onWait s id ref t res) id).1
          = .ok ⟨none, (onWait s id ref t res).nextCid⟩) := by
  have hw : onWait s id ref t res
      = { s with
          entries := aset s.entries ref { e with logs := e.logs ++ [exitMsg t res] },
          received := deliver s.received e.listeners (exitMsg t res),
          bots := aerase s.bots id } := by
    simp only [onWait, he]
  have h1 : alookup (onWait s id ref t res).entries ref
      = some { e with logs := e.logs ++ [exitMsg t res] } := by
    rw [hw]
    exact alookup_aset_self ..
  have h3 : alookup (onWait s id ref t res).bots id = none := by
    rw [hw]
    exact alookup_aerase_self ..
  have h4 : runningEntry (onWait s id ref t res) id = none := by
    rw [runningEntry, h3]
  have he2 : alookup (stopBot env s id).entries ref = some e := by
    simp only [stopBot, hb]
    exact he
  refine ⟨h1, ?_, h3, h4, ?_, ?_, ?_, ?_⟩
  · intro sid hc
    rw [hw]
    show getRcv (deliver s.received e.listeners (exitMsg t res)) sid
      = getRcv s.received sid ++ [exitMsg t res]
    rw [getRcv_deliver, hc]
    simp
  · simp only [stopBot, h3]
  · simp only [onWait, he2]
    exact alookup_aerase_self ..
  · simp only [onWait, he2]
    exact alookup_aset_self ..
  · intro env2 ep hd hrs hc hst
    have hd2 : ¬ env2.dirExists = false := by rw [hd]; simp
    have hc2 : ¬ env2.createOk = false := by rw [hc]; simp
    have hs2 : ¬ env2.startOk = false := by rw [hst]; simp
    rw [startBot, if_neg hd2, h4, hrs, if_neg hc2, if_neg hs2]

/-- Claim C7, witness: bot `"b1"` running with subscriber 5 attached; its
container exits with result `0`. -/
theorem C7_exit_observer_witness :
    getRcv (onWait sSub "b1" 0 "t" "0").received 5
        = getRcv sSub.received 5 ++ [exitMsg "t" "0"]
    ∧ alookup (onWait sSub "b1" 0 "t" "0").bots "b1" = none
    ∧ stopBot envGood (onWait sSub "b1" 0 "t" "0") "b1" = onWait sSub "b1" 0 "t" "0"
    ∧ (startBot envGood (onWait sSub "b1" 0 "t" "0") "b1").1
        = .ok ⟨none, (onWait sSub "b1" 0 "t" "0").nextCid⟩ := by
  have h := C7_exit_observer envGood sSub "b1" 0 ⟨0, [], [5]⟩ "t" "0"
    (by decide) (by decide)
  exact ⟨h.2.1 5 (by decide), h.2.2.1, h.2.2.2.2.1,
    h.2.2.2.2.2.2.2 envGood "/bot/index.js" rfl rfl rfl rfl⟩

/-- Claim C8.  Entry-point resolution (lines 188-202) checks `index.js`,
`app.js`, `server.js` in that fixed order with first match winning, then
falls back to the `main` field of a root `package.json`; and when nothing
resolves, `startBot` on a bundle with no running entry fails with the
`No entry point found` error and leaves the state — in particular the
registry and the created-container list — completely unchanged. -/
theorem C8_entry_resolution (files : List String) (pkgMain : Option String)
    (env : Env) (s : Sys) (id : String) :
    (files.contains "index.js" = true →
        resolveEntry files pkgMain = some "/bot/index.js")
    ∧ (files.contains "index.js" = false → files.contains "app.js" = true →
        resolveEntry files pkgMain = some "/bot/app.js")
    ∧ (files.contains "index.js" = false → files.contains "app.js" = false →
        files.contains "server.js" = true →
        resolveEntry files pkgMain = some "/bot/server.js")
    ∧ (files.contains "index.js" = false → files.contains "app.js" = false →
        files.contains "server.js" = false →
        resolveEntry files pkgMain
          = if files.contains "package.json" = true
            then pkgMain.map (fun m => "/bot/" ++ m) else none)
    ∧ (resolveEntry env.files env.pkgMain = none → env.dirExists = true →
        runningEntry s id = none →
        startBot env s id = (.error .noEntry, s)) := by
  refine ⟨?_, ?_, ?_, ?_, ?_⟩
  · intro h1
    have m1 : "index.js" ∈ files := by simpa using h1
    simp [resolveEntry, List.find?, m1]
  · intro h1 h2
    have m1 : "index.js" ∉ files := by simpa using h1
    have m2 : "app.js" ∈ files := by simpa using h2
    simp [resolveEntry, List.find?, m1, m2]
  · intro h1 h2 h3
    have m1 : "index.js" ∉ files := by simpa using h1
    have m2 : "app.js" ∉ files := by simpa using h2
    have m3 : "server.js" ∈ files := by simpa using h3
    simp [resolveEntry, List.find?, m1, m2, m3]
  · intro h1 h2 h3
    have m1 : "index.js" ∉ files := by simpa using h1
    have m2 : "app.js" ∉ files := by simpa using h2
    have m3 : "server.js" ∉ files := by simpa using h3
    by_cases hp : "package.json" ∈ files
    · cases pkgMain with
      | none => simp [resolveEntry, List.find?, m1, m2, m3, hp]
      | some m => simp [resolveEntry, List.find?, m1, m2, m3, hp]
    · cases pkgMain with
      | none => simp [resolveEntry, List.find?, m1, m2, m3, hp]
      | some m => simp [resolveEntry, List.find?, m1, m2, m3, hp]
  · intro hre0 hd hrn
    have hd2 : ¬ env.dirExists = false := by rw [hd]; simp
    rw [startBot, if_neg hd2, hrn, hre0]

/-- Claim C8, witness: a root with only `app.js` resolves to it; starting a
bundle with neither a conventional entry nor a manifest `main` fails with
the configuration error and changes nothing. -/
theorem C8_entry_resolution_witness :
    resolveEntry ["app.js"] none = some "/bot/app.js"
    ∧ startBot envNoEntry sys0 "b1" = (.error .noEntry, sys0) := by
  have h1 := C8_entry_resolution ["app.js"] none envNoEntry sys0 "b1"
  have h2 := C8_entry_resolution ["notes.txt"] none envNoEntry sys0 "b1"
  exact ⟨h1.2.1 (by decide) (by decide), h2.2.2.2.2 (by decide) rfl rfl⟩

/-- Claim C9, counterexample.  The claim asserts that two simultaneous Start
calls for the same bundle yield exactly one external sandbox because the
engine serializes transitions per bundle id.  The source has no lock of
any kind: both handlers pass the already-running check of line 186 while
neither has yet reached `bots.set` (line 229), because the check and the
set are separated by the `createContainer`/`start` awaits.  Under the
explicit interleaving that alternates the two calls, both reach container
creation: two containers (ids 0 and 1) exist afterwards, both calls return
fresh success (neither sees `already running`), and the registry keeps
only the later creation, leaking the other. -/
theorem C9_interleaved_starts_create_two_sandboxes :
    (runTwo envGood "b" sys0 .init .init [false, true, false, true, false, true]).1.containers
        = [0, 1]
    ∧ (runTwo envGood "b" sys0 .init .init [false, true, false, true, false, true]).2.1
        = .finished (.ok ⟨none, 0⟩)
    ∧ (runTwo envGood "b" sys0 .init .init [false, true, false, true, false, true]).2.2
        = .finished (.ok ⟨none, 1⟩)
    ∧ alookup (runTwo envGood "b" sys0 .init .init
        [false, true, false, true, false, true]).1.bots "b" = some 1 := by
  decide

/-- Claim C9, amended.  Start calls for one bundle are *not* serialized by
any per-identifier exclusion mechanism: there is an interleaving of two
concurrent Start calls that creates two external sandboxes (two racing
creations — the previous theorem's schedule).  Only when the calls do not
interleave does the claimed outcome hold: run to completion one after the
other, exactly one container is created and the second call returns the
first's handle identity via the already-running path. -/
theorem C9_only_sequential_starts_single_sandbox :
    ((runTwo envGood "b" sys0 .init .init [false, true, false, true, false, true]).1.containers.length
        = 2)
    ∧ (runTwo envGood "b" sys0 .init .init [false, false, false, true]).1.containers = [0]
    ∧ (runTwo envGood "b" sys0 .init .init [false, false, false, true]).2.2
        = .finished (.ok ⟨some "already running", 0⟩) := by
  decide

/-- Claim C10.  A WebSocket subscriber that connects for a bundle id with no
live registry entry (never started, stopped, or exited — both removal
paths end in the entry being absent from `bots`) is sent no history and is
registered in no listener set: the connection handler leaves the state
untouched.  And it receives nothing later either: a subsequent fresh Start
builds a brand-new entry with an empty listener set, so any number of
stream chunks of the new instance deliver nothing to that subscriber. -/
theorem C10_dead_subscription (s : Sys) (sid : Nat) (id : String)
    (hb : alookup s.bots id = none)
    (hrcv : getRcv s.received sid = []) :
    connectWS s sid id = s
    ∧ (∀ env r s2, startBot env s id = (.ok r, s2) →
        ∀ post, getRcv (runData s.nextRef s2 post).received sid = []) := by
  constructor
  · simp only [connectWS, hb]
  · intro env r s2 h post
    have hre : runningEntry s id = none := by rw [runningEntry, hb]
    by_cases hde : env.dirExists = false
    · rw [startBot, if_pos hde] at h
      simp at h
    · rw [startBot, if_neg hde, hre] at h
      cases hrs : resolveEntry env.files env.pkgMain with
      | none =>
        rw [hrs] at h
        simp at h
      | some ep =>
        rw [hrs] at h
        by_cases hco : env.createOk = false
        · rw [if_pos hco] at h
          simp at h
        · rw [if_neg hco] at h
          by_cases hso : env.startOk = false
          · rw [if_pos hso] at h
            simp at h
          · rw [if_neg hso] at h
            simp only [Prod.mk.injEq, Except.ok.injEq] at h
            obtain ⟨hr, hs⟩ := h
            have he2 : alookup s2.entries s.nextRef
                = some ⟨s.nextCid, [], []⟩ := by
              rw [← hs]
              exact alookup_aset_self ..
            have hc0 : (Entry.mk s.nextCid [] []).listeners.count sid = 0 := by
              simp
            obtain ⟨hrd, -⟩ := runData_received post s.nextRef sid 0 s2 _ he2 hc0
            rw [hrd, flatMap_replicate_zero]
            have hs2r : s2.received = s.received := by rw [← hs]
            rw [hs2r, hrcv]
            simp

/-- Claim C10, witness: subscriber 9 connects for `"b1"` on a fresh process;
the bundle is then started and a chunk arrives — the subscriber still has
received nothing. -/
theorem C10_dead_subscription_witness :
    connectWS sys0 9 "b1" = sys0
    ∧ getRcv (runData sys0.nextRef (startBot envGood sys0 "b1").2
        [("t", "hello")]).received 9 = [] := by
  have h := C10_dead_subscription sys0 9 "b1" rfl rfl
  exact ⟨h.1, h.2 envGood ⟨none, 0⟩ (startBot envGood sys0 "b1").2 (by decide)
    [("t", "hello")]⟩

end Host
